import Mathlib

/-!
Verification development for the HubSpot deal-analytics scripts
(hubspot_deals_auto_v1).  The definitions below are shallow embeddings of
the TypeScript functions named in their doc comments; JavaScript numbers
are modelled as exact rationals, with `Option ℚ` (`none` = NaN) where NaN
can arise, JavaScript `Date` values as integer epoch-milliseconds or as
calendar records where the code manipulates calendar fields, and the
platform parsing primitives (`parseFloat`, `new Date(string)`) as an
explicit environment of abstract parse functions.
-/

/-- A JavaScript value as it can appear in a HubSpot deal's property bag:
`undefined`, `null`, a string, a number, or an array.  (`num` carries an
exact rational; CRM payloads never contain NaN/Infinity literals.) -/
inductive JSVal where
  | undefinedV
  | null
  | str (s : String)
  | num (q : ℚ)
  | arr (elems : List JSVal)

/-- JavaScript strict equality `value === 0` for a `JSVal`: true exactly when
the value is the number 0 (no coercion, so the string "0" compares false). -/
def jsStrictEqZero (value : JSVal) : Bool :=
  match value with
  | .num q => q = 0
  | _ => false

/-- The combined test `value === null || value === undefined || value === ''`
(strict equalities, so only the empty string — not 0 — matches `''`). -/
def jsNullUndefEmpty (value : JSVal) : Bool :=
  match value with
  | .null => true
  | .undefinedV => true
  | .str s => s = ""
  | _ => false

/-- JavaScript `Array.isArray(value) && value.length === 0`. -/
def jsEmptyArray (value : JSVal) : Bool :=
  match value with
  | .arr elems => elems.isEmpty
  | _ => false

/-- JavaScript `typeof value === 'string' && value.trim() === ''`. -/
def jsBlankString (value : JSVal) : Bool :=
  match value with
  | .str s => s.trim = ""
  | _ => false

namespace TypesTs

/-- `isPropertyMissing` from `src/types.ts` (lines 131-154): missing when the
value is null, undefined, the empty string, the number 0 for the `amount`
property, an empty array, or a whitespace-only string. -/
def isPropertyMissing (propertyName : String) (value : JSVal) : Bool :=
  if jsNullUndefEmpty value then true
  else if propertyName = "amount" && jsStrictEqZero value then true
  else if jsEmptyArray value then true
  else if jsBlankString value then true
  else false

end TypesTs

namespace TypesLegacy

/-- `isPropertyMissing` from the unnamed earlier revision of the hygiene
types module (`src/unnamed/part_006`, lines 77-100): identical to the
`src/types.ts` revision except that an `amount` equal to the number 0 is
treated as PRESENT (early `return false`). -/
def isPropertyMissing (propertyName : String) (value : JSVal) : Bool :=
  if propertyName = "amount" && jsStrictEqZero value then false
  else if jsNullUndefEmpty value then true
  else if jsEmptyArray value then true
  else if jsBlankString value then true
  else false

end TypesLegacy

/-- Round-half-up on rationals: the behaviour of JavaScript `Math.round`
(`Math.round(x) = ⌊x + 1/2⌋`, halves rounding toward positive infinity). -/
def jsRound (q : ℚ) : Int := ⌊q + 1 / 2⌋

/-- One entry of the required-property configuration (`RequiredProperty`
in `src/types.ts`). -/
structure RequiredProperty where
  label : String
  propertyName : String

/-- `REQUIRED_PROPERTIES` from `src/types.ts` (lines 107-120): the 12
required deal properties used by the hygiene checker. -/
def REQUIRED_PROPERTIES : List RequiredProperty :=
  [ ⟨"Product/s", "product_s"⟩,
    ⟨"Prior EHR", "prior_ehr"⟩,
    ⟨"Deal Collaborator", "hs_all_collaborator_owner_ids"⟩,
    ⟨"Last Activity Date (EDT)", "notes_last_updated"⟩,
    ⟨"Next Activity Date (EDT)", "notes_next_activity_date"⟩,
    ⟨"Next Step", "hs_next_step"⟩,
    ⟨"Close Date (EDT)", "closedate"⟩,
    ⟨"Deal Name", "dealname"⟩,
    ⟨"Deal Owner", "hubspot_owner_id"⟩,
    ⟨"Deal Stage", "dealstage"⟩,
    ⟨"Deal Substage", "proposal_stage"⟩,
    ⟨"Amount", "amount"⟩ ]

/-- `PropertyCheck` from `src/types.ts`. -/
structure PropertyCheck where
  label : String
  propertyName : String
  value : JSVal
  isMissing : Bool

/-- A deal as consumed by the hygiene checker: an id and an open
string-keyed property bag (a JS object; absent keys read as `undefined`). -/
structure HDeal where
  id : String
  properties : List (String × JSVal)

/-- JavaScript property access `props[name]`: an absent key yields
`undefined`. -/
def getProp (props : List (String × JSVal)) (name : String) : JSVal :=
  (props.lookup name).getD .undefinedV

/-- The scoring-relevant part of `DealHygieneReport` from `src/types.ts`. -/
structure DealHygieneReport where
  dealId : String
  propertyChecks : List PropertyCheck
  missingProperties : List PropertyCheck
  completenessScore : Int
  totalRequired : Nat
  totalPresent : Int
  totalMissing : Nat

namespace DealHygiene

/-- `analyzeDeal` from `src/deal-hygiene.ts` (lines 14-70), scoring core:
checks each of the 12 `REQUIRED_PROPERTIES` with the
`src/types.ts` revision of `isPropertyMissing`, collects the missing ones,
and computes `completenessScore = Math.round((totalPresent / totalRequired)
* 100)`.  (The display-name enrichment of lines 48-62 — stage / pipeline /
owner label lookups — produces formatting-only strings and is not
modelled.) -/
def analyzeDeal (deal : HDeal) : DealHygieneReport :=
  let propertyChecks := REQUIRED_PROPERTIES.map (fun rp =>
    let value := getProp deal.properties rp.propertyName
    { label := rp.label
      propertyName := rp.propertyName
      value := value
      isMissing := TypesTs.isPropertyMissing rp.propertyName value })
  let missingProperties := propertyChecks.filter (fun c => c.isMissing)
  let totalRequired := REQUIRED_PROPERTIES.length
  let totalPresent : Int := (totalRequired : Int) - missingProperties.length
  let completenessScore := jsRound ((totalPresent : ℚ) / (totalRequired : ℚ) * 100)
  { dealId := deal.id
    propertyChecks := propertyChecks
    missingProperties := missingProperties
    completenessScore := completenessScore
    totalRequired := totalRequired
    totalPresent := totalPresent
    totalMissing := missingProperties.length }

end DealHygiene

/-- A deal whose 12 required properties are all present, used to
instantiate theorems about the hygiene scorer. -/
def goodDeal : HDeal :=
  ⟨"deal-1",
   [ ("product_s", .str "EHR"),
     ("prior_ehr", .str "None"),
     ("hs_all_collaborator_owner_ids", .str "42"),
     ("notes_last_updated", .str "2025-10-01"),
     ("notes_next_activity_date", .str "2025-10-20"),
     ("hs_next_step", .str "Send contract"),
     ("closedate", .str "2025-11-30"),
     ("dealname", .str "Acme"),
     ("hubspot_owner_id", .str "7"),
     ("dealstage", .str "59865091"),
     ("proposal_stage", .str "Drafting"),
     ("amount", .num 25000) ]⟩

/-- The JavaScript platform parsing primitives the scripts rely on,
abstracted: `parseFloat` (with `none` standing for NaN) and
`new Date(string)` in epoch milliseconds (with `none` standing for an
Invalid Date).  `parseFloat_zero` records the platform fact
`parseFloat('0') = 0`, which the weekly forecast's `|| '0'` default
depends on. -/
structure JSEnv where
  parseFloat : String → Option ℚ
  parseDate : String → Option Int
  parseFloat_zero : parseFloat "0" = some 0

/-- The properties of a raw HubSpot deal that the quarterly forecast reads
(all HubSpot property values arrive as strings; `none` = property absent
or null). -/
structure FDealProps where
  closedate : Option String
  amount : Option String
  dealname : Option String
  dealstage : Option String
  dealstageLabel : Option String
  hubspotOwnerId : Option String

/-- A raw deal record as consumed by `processForecastDeals`. -/
structure FDeal where
  id : String
  properties : FDealProps

/-- The current-quarter window as a pair of epoch-millisecond instants
(`QuarterInfo.startDate` / `QuarterInfo.endDate` of `src/forecast.ts`,
viewed through the epoch values by which `Date` objects compare). -/
structure QuarterWindow where
  startMs : Int
  endMs : Int

/-- `ForecastDeal` from `src/types.ts` (the `closeDateString` display
field, an `Intl` formatting of `closeDate`, is not modelled). -/
structure ForecastDeal where
  dealId : String
  dealName : String
  dealStage : String
  dealStageName : String
  dealOwner : Option String
  dealOwnerName : String
  amount : ℚ
  closeDate : Option Int
  deriving DecidableEq

/-- JavaScript `x || dflt` for an optional string (absent/null and the
empty string are falsy). -/
def jsOrString (o : Option String) (dflt : String) : String :=
  match o with
  | some s => if s = "" then dflt else s
  | none => dflt

/-- JavaScript truthiness of an optional string property. -/
def optTruthy (o : Option String) : Bool :=
  match o with
  | some s => s ≠ ""
  | none => false

/-- `isInQuarter` from `src/forecast.ts` (lines 53-55):
`date >= quarter.startDate && date <= quarter.endDate`; an Invalid Date
(`none`) compares false on both sides. -/
def isInQuarter (date : Option Int) (quarter : QuarterWindow) : Bool :=
  match date with
  | some t => quarter.startMs ≤ t && t ≤ quarter.endMs
  | none => false

/-- The forecast's amount read: `parseFloat(properties.amount)`; an absent
property gives `parseFloat(undefined)` = NaN. -/
def forecastAmount (env : JSEnv) (deal : FDeal) : Option ℚ :=
  match deal.properties.amount with
  | some s => env.parseFloat s
  | none => none

/-- Construction of the `ForecastDeal` pushed by `processForecastDeals`
(lines 124-137 of `src/forecast.ts`), including the owner-name lookup
`owners.get(id) || 'Unknown Owner'`. -/
def mkForecastDeal (deal : FDeal) (owners : List (String × String))
    (amount : ℚ) (closeDate : Option Int) : ForecastDeal :=
  { dealId := deal.id
    dealName := jsOrString deal.properties.dealname "Untitled Deal"
    dealStage := jsOrString deal.properties.dealstage ""
    dealStageName := jsOrString deal.properties.dealstageLabel "Unknown Stage"
    dealOwner := if optTruthy deal.properties.hubspotOwnerId then
        deal.properties.hubspotOwnerId else none
    dealOwnerName :=
      match deal.properties.hubspotOwnerId with
      | some oid =>
        if oid = "" then "Unassigned"
        else jsOrString (owners.lookup oid) "Unknown Owner"
      | none => "Unassigned"
    amount := amount
    closeDate := closeDate }

/-- `processForecastDeals` from `src/forecast.ts` (lines 91-141): walks the
deal list in order; a falsy `closedate` is skipped and counted; a parsed
close date failing `isInQuarter` (including Invalid Dates) is dropped
without counting; a NaN amount is skipped and counted; the rest become
`ForecastDeal`s.  Returns (forecastDeals, skippedCount). -/
def processForecastDeals (env : JSEnv) (deals : List FDeal)
    (owners : List (String × String)) (quarter : QuarterWindow) :
    List ForecastDeal × Nat :=
  match deals with
  | [] => ([], 0)
  | deal :: rest =>
    let r := processForecastDeals env rest owners quarter
    match deal.properties.closedate with
    | none => (r.1, r.2 + 1)
    | some s =>
      if s = "" then (r.1, r.2 + 1)
      else
        let closeDate := env.parseDate s
        if isInQuarter closeDate quarter then
          match forecastAmount env deal with
          | some amount => (mkForecastDeal deal owners amount closeDate :: r.1, r.2)
          | none => (r.1, r.2 + 1)
        else r

/-- The totals part of `ForecastSummary` from `src/types.ts`. -/
structure ForecastSummary where
  quarter : QuarterWindow
  totalARR : ℚ
  totalDeals : Nat
  averageDealSize : ℚ
  allDeals : List ForecastDeal
  skippedDealsCount : Nat

/-- `createForecastSummary` from `src/forecast.ts` (lines 146-220), totals
core: `totalARR` accumulates every forecast deal's amount, `allDeals` is
the forecast population unchanged, and the skipped count is passed
through.  (The monthly and per-owner breakdowns of lines 156-208 are
display regroupings of `allDeals` and are not modelled.) -/
def createForecastSummary (forecastDeals : List ForecastDeal)
    (quarter : QuarterWindow) (skippedCount : Nat) : ForecastSummary :=
  let totalARR := forecastDeals.foldl (fun sum deal => sum + deal.amount) 0
  let totalDeals := forecastDeals.length
  let averageDealSize := if totalDeals > 0 then totalARR / (totalDeals : ℚ) else 0
  { quarter := quarter
    totalARR := totalARR
    totalDeals := totalDeals
    averageDealSize := averageDealSize
    allDeals := forecastDeals
    skippedDealsCount := skippedCount }

/-- Spec-side (amended skip policy): a deal increments `skipped_count`
exactly when its close-date string is absent or empty, or when its close
date parses into the quarter but its amount is absent or unparseable. -/
def forecastSkipSpec (env : JSEnv) (quarter : QuarterWindow) (deal : FDeal) : Bool :=
  match deal.properties.closedate with
  | none => true
  | some s =>
    s = "" || (isInQuarter (env.parseDate s) quarter &&
               (forecastAmount env deal).isNone)

/-- Spec-side (amended keep policy): a deal enters the forecast population
exactly when it has a non-empty close-date string parsing into the quarter
and a parseable amount. -/
def forecastKeepSpec (env : JSEnv) (owners : List (String × String))
    (quarter : QuarterWindow) (deal : FDeal) : Option ForecastDeal :=
  match deal.properties.closedate with
  | none => none
  | some s =>
    if s = "" then none
    else if isInQuarter (env.parseDate s) quarter then
      match forecastAmount env deal with
      | some amount => some (mkForecastDeal deal owners amount (env.parseDate s))
      | none => none
    else none

/-- Parse environment for concrete forecast inputs: every date string is
Invalid (as `new Date('not-a-date')` is), and only "0" and "100" parse as
numbers. -/
def envC1 : JSEnv :=
  { parseFloat := fun s => if s = "0" then some 0 else if s = "100" then some 100 else none
    parseDate := fun _ => none
    parseFloat_zero := by simp }

/-- A deal with a non-empty but unparseable close date and a valid amount
of 100. -/
def dealC1 : FDeal :=
  ⟨"d1", ⟨some "not-a-date", some "100", none, none, none, none⟩⟩

-- ===================== weekly pipeline forecast (src/unnamed/part_004) =====================

/-- `none` models the JavaScript NaN outcome of an arithmetic chain over
parsed amounts; `some q` is an ordinary finite number. -/
abbrev JNum := Option ℚ

/-- JavaScript `+` on possibly-NaN numbers: NaN propagates. -/
def jnAdd (a b : JNum) : JNum :=
  match a, b with
  | some x, some y => some (x + y)
  | _, _ => none

/-- JavaScript `*` by a finite constant: NaN propagates. -/
def jnScale (a : JNum) (c : ℚ) : JNum := a.map (fun x => x * c)

/-- JavaScript `/` on possibly-NaN numbers (the scripts only divide by a
checked-positive total, so the zero-divisor case never arises; it is
mapped to `none`). -/
def jnDiv (a b : JNum) : JNum :=
  match a, b with
  | some x, some y => if y = 0 then none else some (x / y)
  | _, _ => none

/-- JavaScript `x > 0` on a possibly-NaN number (NaN compares false). -/
def jnPos (a : JNum) : Bool :=
  match a with
  | some x => 0 < x
  | none => false

/-- Sum of a list of possibly-NaN numbers, accumulated left to right from
0 exactly as the scripts' `+=` loops do. -/
def jnSum (l : List JNum) : JNum := l.foldl jnAdd (some 0)

/-- JavaScript `str.includes(pat)` at the character-list level: prefix
test... -/
def listHasPrefix : List Char → List Char → Bool
  | [], _ => true
  | _ :: _, [] => false
  | p :: ps, c :: cs => p = c && listHasPrefix ps cs

/-- ... and substring test. -/
def listHasSub (pat : List Char) : List Char → Bool
  | [] => listHasPrefix pat []
  | c :: cs => listHasPrefix pat (c :: cs) || listHasSub pat cs

/-- JavaScript `s.includes(pat)`. -/
def strIncludes (s pat : String) : Bool := listHasSub pat.data s.data

/-- `STAGE_WEIGHTS` from `src/unnamed/part_004` (lines 32-36): sql 30%,
demo 30%, proposal 50%; anything else is absent (0 via the default). -/
def STAGE_WEIGHTS (key : String) : ℚ :=
  if key = "sql" then 30 / 100
  else if key = "demo" then 30 / 100
  else if key = "proposal" then 50 / 100
  else 0

/-- `getStageWeight` from `src/unnamed/part_004` (lines 93-109):
case-insensitive substring matching of the stage label against the weight
vocabulary, defaulting to 0 when nothing matches. -/
def getStageWeight (stageLabel : String) : ℚ :=
  let normalized := stageLabel.toLower.trim
  if strIncludes normalized "sql" then STAGE_WEIGHTS "sql"
  else if strIncludes normalized "demo" &&
      (strIncludes normalized "completed" || strIncludes normalized "complete") then
    STAGE_WEIGHTS "demo"
  else if strIncludes normalized "proposal" then STAGE_WEIGHTS "proposal"
  else 0

/-- `getReadableStageName` from `src/unnamed/part_004` (lines 114-124). -/
def getReadableStageName (stageLabel : String) : String :=
  let normalized := stageLabel.toLower.trim
  if strIncludes normalized "sql" then "SQL"
  else if strIncludes normalized "demo" &&
      (strIncludes normalized "completed" || strIncludes normalized "complete") then
    "Demo Completed"
  else if strIncludes normalized "proposal" then "Proposal"
  else stageLabel

/-- A pipeline stage as fetched from HubSpot (id and display label). -/
structure PStage where
  id : String
  label : String

/-- A pipeline with its nested stages. -/
structure PPipeline where
  id : String
  label : String
  stages : List PStage

/-- The properties of a raw deal that the weekly forecast reads. -/
structure PDealProps where
  dealstage : Option String
  pipeline : Option String
  amount : Option String
  hsDateEnteredClosedwon : Option String
  hsDateEnteredClosedlost : Option String

/-- A raw deal record as consumed by the weekly forecast. -/
structure PDeal where
  id : String
  properties : PDealProps

/-- One bucket of the in-progress stage grouping of
`processActivePipelineDeals`. -/
structure PGroup where
  deals : List PDeal
  stageLabel : String
  pipelineId : Option String

/-- `StageForecast` from `src/types.ts`. -/
structure StageForecast where
  stageName : String
  dealCount : Nat
  pipelineAmount : JNum
  weightedAmount : JNum
  stageWeight : ℚ
  percentageOfTotal : JNum

/-- The return value of `processActivePipelineDeals`. -/
structure PipelineMetrics where
  stageBreakdown : List StageForecast
  totalPipeline : JNum
  weightedPipeline : JNum

/-- The stage-label lookup of `processActivePipelineDeals` (lines
146-154): scan the pipelines for a stage with the given id, defaulting to
"Unknown". -/
def findStageLabel : List PPipeline → String → String
  | [], _ => "Unknown"
  | p :: rest, stageId =>
    match p.stages.find? (fun s => s.id == stageId) with
    | some stage => stage.label
    | none => findStageLabel rest stageId

/-- JavaScript template interpolation of a possibly-undefined string
(an absent value prints as "undefined"). -/
def optKeyStr : Option String → String
  | some s => s
  | none => "undefined"

/-- Append a deal to the group for `key`, creating the group at the end on
first sight — the insertion-order behaviour of the script's `Map`. -/
def insertGroup : List (String × PGroup) → String → PDeal → String → Option String →
    List (String × PGroup)
  | [], key, d, stageLabel, pid => [(key, ⟨[d], stageLabel, pid⟩)]
  | (k, g) :: rest, key, d, stageLabel, pid =>
    if k = key then (k, { g with deals := g.deals ++ [d] }) :: rest
    else (k, g) :: insertGroup rest key d stageLabel pid

/-- The grouping loop of `processActivePipelineDeals` (lines 140-162):
deals with a falsy `dealstage` are dropped; the rest are bucketed by
`pipelineId:stageId` in insertion order. -/
def buildStageGroups (pipelines : List PPipeline) :
    List PDeal → List (String × PGroup) → List (String × PGroup)
  | [], acc => acc
  | d :: rest, acc =>
    match d.properties.dealstage with
    | none => buildStageGroups pipelines rest acc
    | some stageId =>
      if stageId = "" then buildStageGroups pipelines rest acc
      else
        let stageLabel := findStageLabel pipelines stageId
        let key := optKeyStr d.properties.pipeline ++ ":" ++ stageId
        buildStageGroups pipelines rest
          (insertGroup acc key d stageLabel d.properties.pipeline)

/-- The per-deal amount read of the weekly forecast:
`parseFloat(deal.properties.amount || '0')` — absent or empty defaults
through the string "0"; a non-empty string goes to `parseFloat` directly
(NaN when unparseable). -/
def dealAmountOrZero (env : JSEnv) (d : PDeal) : JNum :=
  match d.properties.amount with
  | none => env.parseFloat "0"
  | some s => if s = "" then env.parseFloat "0" else env.parseFloat s

/-- The per-group metrics of `processActivePipelineDeals` (lines 169-195):
amount accumulation, deal count, weight lookup, and
`weightedAmount = pipelineAmount * stageWeight`; `percentageOfTotal` is
initialised to 0 and recomputed after the totals are known. -/
def mkStageForecast (env : JSEnv) (g : PGroup) : StageForecast :=
  let pipelineAmount := g.deals.foldl (fun acc d => jnAdd acc (dealAmountOrZero env d)) (some 0)
  { stageName := getReadableStageName g.stageLabel
    dealCount := g.deals.length
    pipelineAmount := pipelineAmount
    weightedAmount := jnScale pipelineAmount (getStageWeight g.stageLabel)
    stageWeight := getStageWeight g.stageLabel
    percentageOfTotal := some 0 }

/-- `stageOrder.indexOf(name)` for the canonical output order
`['SQL', 'Demo Completed', 'Proposal']` (−1 for anything else). -/
def stageIdx (name : String) : Int :=
  if name = "SQL" then 0
  else if name = "Demo Completed" then 1
  else if name = "Proposal" then 2
  else -1

/-- `processActivePipelineDeals` from `src/unnamed/part_004` (lines
129-211): group by stage, accumulate per-stage and total amounts, compute
percentages in a second pass once the total is known, and stable-sort the
buckets by the canonical stage order (the ascending-comparator
`Array.prototype.sort` is stable). -/
def processActivePipelineDeals (env : JSEnv) (deals : List PDeal)
    (pipelines : List PPipeline) : PipelineMetrics :=
  let groups := buildStageGroups pipelines deals []
  let acc := groups.foldl
    (fun acc kg =>
      let sf := mkStageForecast env kg.2
      (acc.1 ++ [sf], jnAdd acc.2.1 sf.pipelineAmount, jnAdd acc.2.2 sf.weightedAmount))
    (([] : List StageForecast), (some 0 : JNum), (some 0 : JNum))
  let totalPipeline := acc.2.1
  let withPct := acc.1.map (fun b =>
    { b with percentageOfTotal :=
        if jnPos totalPipeline then jnScale (jnDiv b.pipelineAmount totalPipeline) 100
        else some 0 })
  let sorted := withPct.mergeSort (fun a b => stageIdx a.stageName ≤ stageIdx b.stageName)
  ⟨sorted, totalPipeline, acc.2.2⟩

/-- `isInCurrentWeek` from `src/unnamed/part_004` (lines 83-88): a falsy
timestamp is out; otherwise parse and compare inclusively against the week
bounds (an Invalid Date compares false). -/
def isInCurrentWeek (env : JSEnv) (timestamp : Option String)
    (weekStart weekEnd : Int) : Bool :=
  match timestamp with
  | none => false
  | some s =>
    if s = "" then false
    else
      match env.parseDate s with
      | some t => weekStart ≤ t && t ≤ weekEnd
      | none => false

/-- The count/amount pair returned by `processClosedDeals`. -/
structure ClosedResult where
  count : Nat
  amount : JNum
  deriving DecidableEq

/-- `processClosedDeals` from `src/unnamed/part_004` (lines 216-237): over
the closed deals, count and sum (`parseFloat(amount || '0')`) those whose
stage-entry timestamp falls in the current week. -/
def processClosedDeals (env : JSEnv) (deals : List PDeal)
    (weekStart weekEnd : Int) (isClosedWon : Bool) : ClosedResult :=
  deals.foldl
    (fun acc d =>
      let dateEntered := if isClosedWon then d.properties.hsDateEnteredClosedwon
        else d.properties.hsDateEnteredClosedlost
      if isInCurrentWeek env dateEntered weekStart weekEnd then
        ⟨acc.count + 1, jnAdd acc.amount (dealAmountOrZero env d)⟩
      else acc)
    ⟨0, some 0⟩

/-- Parse environment where only "0", "100" and "300" are numeric and only
"t5" is a valid date (epoch 5). -/
def envW : JSEnv :=
  { parseFloat := fun s =>
      if s = "0" then some 0 else if s = "100" then some 100
      else if s = "300" then some 300 else none
    parseDate := fun s => if s = "t5" then some 5 else none
    parseFloat_zero := by simp }

/-- One pipeline "Sales" with a single stage s1 labelled "SQL". -/
def plsDemo : List PPipeline := [⟨"p1", "Sales", [⟨"s1", "SQL"⟩]⟩]

/-- Two SQL-stage deals with parseable amounts 100 and 300, the first one
closed-won inside the demo week. -/
def dealsW : List PDeal :=
  [ ⟨"w1", ⟨some "s1", some "p1", some "100", some "t5", none⟩⟩,
    ⟨"w2", ⟨some "s1", some "p1", some "300", none, none⟩⟩ ]

/-- Parse environment where no string is numeric except "0" (so "abc"
parses to NaN) and no string is a valid date. -/
def envNaN : JSEnv :=
  { parseFloat := fun s => if s = "0" then some 0 else none
    parseDate := fun _ => none
    parseFloat_zero := by simp }

/-- An SQL-stage deal whose amount property is the non-numeric string
"abc". -/
def dealAbc : PDeal := ⟨"d2", ⟨some "s1", some "p1", some "abc", none, none⟩⟩

-- ===================== stage aging (src/stage-aging.ts) =====================

/-- `calculateMedian` from `src/stage-aging.ts` (lines 187-198): sort a
copy ascending (`(a, b) => a - b`), take the middle element for odd
lengths and the mean of the two middle elements for even lengths; 0 for an
empty list. -/
def calculateMedian (numbers : List ℚ) : ℚ :=
  if numbers.length = 0 then 0
  else
    let sorted := numbers.mergeSort (fun a b => a ≤ b)
    let mid := sorted.length / 2
    if sorted.length % 2 = 0 then (sorted.getD (mid - 1) 0 + sorted.getD mid 0) / 2
    else sorted.getD mid 0

/-- `StageConfig` from `src/types.ts`. -/
structure StageConfig where
  stageId : String
  stageName : String
  thresholdDays : Int
  flagReason : String

/-- The fields of `StageAgingDeal` that `createStageBreakdown` reads. -/
structure StageAgingDeal where
  dealId : String
  dealStage : String
  daysInStage : Int
  deriving DecidableEq

/-- `StageBreakdown` from `src/types.ts`. -/
structure StageBreakdown where
  stageName : String
  stageId : String
  thresholdDays : Int
  totalDeals : Nat
  flaggedDeals : Nat
  averageDaysInStage : Int
  medianDaysInStage : Int
  longestDeal : Option StageAgingDeal
  flaggedDealsList : List StageAgingDeal
  deriving DecidableEq

/-- `createStageBreakdown` from `src/stage-aging.ts` (lines 203-237):
filter the analyzed deals to the stage, flag those beyond the threshold,
and report `Math.round`-ed average and median days-in-stage plus the
longest-resident deal (`reduce` keeping the first on ties). -/
def createStageBreakdown (stageConfig : StageConfig)
    (deals : List StageAgingDeal) : StageBreakdown :=
  let stageDeals := deals.filter (fun d => d.dealStage == stageConfig.stageId)
  let flaggedDeals := stageDeals.filter (fun d => stageConfig.thresholdDays < d.daysInStage)
  let daysInStageArray := stageDeals.map (fun d => (d.daysInStage : ℚ))
  let averageDaysInStage : ℚ :=
    if daysInStageArray.length > 0 then
      daysInStageArray.sum / (daysInStageArray.length : ℚ)
    else 0
  let medianDaysInStage := calculateMedian daysInStageArray
  let longestDeal :=
    match stageDeals with
    | [] => none
    | h :: t => some (t.foldl
        (fun longest current =>
          if longest.daysInStage < current.daysInStage then current else longest) h)
  { stageName := stageConfig.stageName
    stageId := stageConfig.stageId
    thresholdDays := stageConfig.thresholdDays
    totalDeals := stageDeals.length
    flaggedDeals := flaggedDeals.length
    averageDaysInStage := jsRound averageDaysInStage
    medianDaysInStage := jsRound medianDaysInStage
    longestDeal := longestDeal
    flaggedDealsList := flaggedDeals }

/-- The Proposal stage entry of `STAGE_CONFIGS` (src/stage-aging.ts lines
37-41). -/
def proposalConfig : StageConfig :=
  ⟨"59865091", "Proposal", 7, "Stalled in Proposal"⟩

/-- Two Proposal-stage deals with 2 and 3 days in stage. -/
def agingDeals23 : List StageAgingDeal :=
  [⟨"a1", "59865091", 2⟩, ⟨"a2", "59865091", 3⟩]

/-- Four Proposal-stage deals with 2, 4, 6 and 8 days in stage. -/
def agingDeals2468 : List StageAgingDeal :=
  [⟨"b1", "59865091", 2⟩, ⟨"b2", "59865091", 4⟩,
   ⟨"b3", "59865091", 6⟩, ⟨"b4", "59865091", 8⟩]


-- ===================== time windows (src/forecast.ts, src/unnamed/part_004) =====================

/-- A JavaScript `Date` seen through its (local-time) calendar components,
as `getCurrentQuarter` manipulates them (month is 0-indexed, 0-11). -/
structure DateTime where
  year : Int
  month : Int
  day : Int
  hour : Int
  minute : Int
  second : Int
  ms : Int
  deriving DecidableEq

/-- Gregorian leap-year rule (the ECMAScript calendar). -/
def isLeapYear (y : Int) : Bool := (y % 4 = 0 && y % 100 ≠ 0) || y % 400 = 0

/-- Days in the 0-indexed month `m` of year `y` (the ECMAScript
calendar). -/
def daysInMonth (y m : Int) : Int :=
  if m = 1 then (if isLeapYear y then 29 else 28)
  else if m = 3 ∨ m = 5 ∨ m = 8 ∨ m = 10 then 30
  else 31

/-- The ECMAScript `new Date(year, month, day, h, min, s, ms)` constructor
for the arguments the forecast passes: a month of 12 rolls into January of
the next year, and day 0 selects the last day of the previous month.  (The
source only ever passes nonnegative months and day 0 or 1, where integer
`/` and `%` agree with the ECMAScript flooring normalisation; general
day-of-month overflow is not modelled.) -/
def jsMakeDate (year month day hour minute second ms : Int) : DateTime :=
  let y1 := year + month / 12
  let m1 := month % 12
  if day = 0 then
    if m1 = 0 then ⟨y1 - 1, 11, daysInMonth (y1 - 1) 11, hour, minute, second, ms⟩
    else ⟨y1, m1 - 1, daysInMonth y1 (m1 - 1), hour, minute, second, ms⟩
  else ⟨y1, m1, day, hour, minute, second, ms⟩

/-- `QuarterInfo` from `src/types.ts`, with its `Date` endpoints as
calendar records. -/
structure QuarterInfo where
  year : Int
  quarter : Int
  startDate : DateTime
  endDate : DateTime
  label : String
  deriving DecidableEq

/-- `getCurrentQuarter` from `src/forecast.ts` (lines 26-48).  The source
takes no parameter: it reads the platform clock inside its body
(`const now = new Date()`, line 27); that clock reading is the explicit
`now` argument here. -/
def getCurrentQuarter (now : DateTime) : QuarterInfo :=
  let year := now.year
  let month := now.month
  let quarter := month / 3 + 1
  let quarterStartMonth := (quarter - 1) * 3
  let startDate := jsMakeDate year quarterStartMonth 1 0 0 0 0
  let quarterEndMonth := quarter * 3
  let endDate := jsMakeDate year quarterEndMonth 0 23 59 59 999
  ⟨year, quarter, startDate, endDate, s!"Q{quarter} {year}"⟩

/-- An instant seen as (days since 1970-01-01, milliseconds within the
day) — the granularity at which `getCurrentWeek` works, since `setDate` /
`setHours` shift whole days and reset the time of day.  1970-01-01 was a
Thursday, so ECMAScript `getDay()` is `(days + 4) mod 7`. -/
structure DayTime where
  days : Int
  msOfDay : Int
  deriving DecidableEq

/-- ECMAScript `getDay()`: 0 = Sunday, ..., 6 = Saturday. -/
def dayOfWeek (days : Int) : Int := (days + 4) % 7

/-- The return value of `getCurrentWeek`. -/
structure WeekInfo where
  weekStart : DayTime
  weekEnd : DayTime
  weekEndingDate : DayTime
  deriving DecidableEq

/-- `getCurrentWeek` from `src/unnamed/part_004` (lines 45-67).  The
source reads the platform clock inside its body (line 46); the reading is
the explicit `now` argument here.  `setDate(getDate() - daysSinceMonday)`
shifts that many whole days (normalising across month boundaries) and
`setHours(...)` pins the time of day, so the day-number model captures the
computation exactly. -/
def getCurrentWeek (now : DayTime) : WeekInfo :=
  let currentDay := dayOfWeek now.days
  let daysSinceMonday := if currentDay = 0 then 6 else currentDay - 1
  let weekStart : DayTime := ⟨now.days - daysSinceMonday, 0⟩
  let weekEnd : DayTime := ⟨weekStart.days + 6, 86399999⟩
  let weekEndingDate : DayTime := ⟨weekEnd.days, 86399999⟩
  ⟨weekStart, weekEnd, weekEndingDate⟩

/-- Chronological order on day/millisecond instants (how `Date` values
compare). -/
def dtLe (a b : DayTime) : Prop :=
  a.days < b.days ∨ (a.days = b.days ∧ a.msOfDay ≤ b.msOfDay)

instance (a b : DayTime) : Decidable (dtLe a b) :=
  inferInstanceAs (Decidable (a.days < b.days ∨ (a.days = b.days ∧ a.msOfDay ≤ b.msOfDay)))

/-- 2025-10-15 local midnight (month 9 = October). -/
def oct15 : DateTime := ⟨2025, 9, 15, 0, 0, 0, 0⟩

/-- 2025-01-15 local noon (month 0 = January). -/
def jan15 : DateTime := ⟨2025, 0, 15, 12, 0, 0, 0⟩

/-- 1970-01-04 (day number 3, a Sunday) at noon. -/
def sundayNoon : DayTime := ⟨3, 43200000⟩

-- ============================ theorems ============================

/-- Helper: off the single input (propertyName = "amount", value = the
number 0), the two revisions of `isPropertyMissing` coincide. -/
theorem isPropertyMissing_agree (name : String) (v : JSVal)
    (h : ¬(name = "amount" ∧ v = .num 0)) :
    TypesTs.isPropertyMissing name v = TypesLegacy.isPropertyMissing name v := by
  by_cases hn : name = "amount"
  · subst hn
    cases v with
    | num q =>
      have hq : q ≠ 0 := fun hq0 => h ⟨rfl, by rw [hq0]⟩
      simp [TypesTs.isPropertyMissing, TypesLegacy.isPropertyMissing,
        jsStrictEqZero, jsNullUndefEmpty, hq]
    | _ =>
      simp [TypesTs.isPropertyMissing, TypesLegacy.isPropertyMissing,
        jsStrictEqZero, jsNullUndefEmpty]
  · cases v <;>
      simp [TypesTs.isPropertyMissing, TypesLegacy.isPropertyMissing,
        jsStrictEqZero, jsNullUndefEmpty, hn]

/-- C2: the two revisions of `isPropertyMissing` return equal results on
every (propertyName, value) input except (propertyName = "amount",
value = the number 0), where the `src/types.ts` hygiene-checker revision
returns true (zero treated as missing) and the `part_006` revision returns
false (zero treated as present). -/
theorem isPropertyMissing_revisions (name : String) (v : JSVal) :
    (name = "amount" → v = .num 0 →
      TypesTs.isPropertyMissing name v = true ∧
      TypesLegacy.isPropertyMissing name v = false) ∧
    (¬(name = "amount" ∧ v = .num 0) →
      TypesTs.isPropertyMissing name v = TypesLegacy.isPropertyMissing name v) := by
  refine ⟨fun hn hv => ?_, fun h => isPropertyMissing_agree name v h⟩
  subst hn; subst hv
  constructor <;> with_unfolding_all decide

theorem isPropertyMissing_revisions_witness :
    TypesTs.isPropertyMissing "amount" (.num 0) = true ∧
    TypesLegacy.isPropertyMissing "amount" (.num 0) = false :=
  (isPropertyMissing_revisions "amount" (.num 0)).1 rfl rfl

/-- C10: both revisions compare the zero-amount special case with strict
equality, so the string "0" is classified as present by both, and any
disagreement between the revisions forces propertyName = "amount" and
value = the number 0. -/
theorem isPropertyMissing_strict_zero (name : String) (v : JSVal) :
    (TypesTs.isPropertyMissing "amount" (.str "0") = false ∧
     TypesLegacy.isPropertyMissing "amount" (.str "0") = false) ∧
    (TypesTs.isPropertyMissing name v ≠ TypesLegacy.isPropertyMissing name v →
      name = "amount" ∧ v = .num 0) := by
  constructor
  · constructor <;> with_unfolding_all decide
  · intro hne
    by_contra hcon
    exact hne (isPropertyMissing_agree name v hcon)

theorem isPropertyMissing_strict_zero_witness :
    (TypesTs.isPropertyMissing "amount" (.str "0") = false ∧
     TypesLegacy.isPropertyMissing "amount" (.str "0") = false) ∧
    ("amount" = "amount" ∧ JSVal.num 0 = JSVal.num 0) :=
  ⟨(isPropertyMissing_strict_zero "x" .undefinedV).1,
   (isPropertyMissing_strict_zero "amount" (.num 0)).2
     (by with_unfolding_all decide)⟩

/-- Helper: for 0 ≤ m ≤ 12 missing properties, the rounded completeness
score equals 100 only when m = 0. -/
theorem score_eq_100_aux :
    ∀ m : Fin 13, jsRound ((((12 : Int) - (m.val : Int) : Int) : ℚ) / 12 * 100) = 100 →
      m.val = 0 := by
  with_unfolding_all decide

/-- C3: if a deal's completeness score is 100 then its missing-property
list is empty. -/
theorem score_100_no_missing (deal : HDeal)
    (h : (DealHygiene.analyzeDeal deal).completenessScore = 100) :
    (DealHygiene.analyzeDeal deal).missingProperties = [] := by
  set r := DealHygiene.analyzeDeal deal with hr
  have hlen : r.missingProperties.length ≤ 12 := by
    have h1 : r.missingProperties.length ≤ r.propertyChecks.length := by
      rw [hr]; exact List.length_filter_le _ _
    have h2 : r.propertyChecks.length = 12 := by
      rw [hr]; simp [DealHygiene.analyzeDeal, REQUIRED_PROPERTIES]
    omega
  have hscore : r.completenessScore =
      jsRound ((((12 : Int) - (r.missingProperties.length : Int) : Int) : ℚ) / 12 * 100) := by
    rw [hr]; rfl
  have := score_eq_100_aux ⟨r.missingProperties.length, by omega⟩ (by
    rw [← hscore]; exact h)
  simpa using List.length_eq_zero.mp this

theorem score_100_no_missing_witness :
    (DealHygiene.analyzeDeal goodDeal).completenessScore = 100 ∧
    (DealHygiene.analyzeDeal goodDeal).missingProperties = [] :=
  ⟨by with_unfolding_all decide,
   score_100_no_missing goodDeal (by with_unfolding_all decide)⟩

/-- Helper: the forecast's running `totalARR` fold equals the sum of the
deals' amounts. -/
theorem foldl_amount_eq_sum (l : List ForecastDeal) (c : ℚ) :
    l.foldl (fun sum deal => sum + deal.amount) c = c + (l.map (fun d => d.amount)).sum := by
  induction l generalizing c with
  | nil => simp
  | cons d rest ih => simp [ih, add_assoc]

/-- C1 counterexample: a deal whose close-date string "not-a-date" is
non-empty but unparseable (Invalid Date) and whose amount 100 is valid is
excluded from the forecast with skipped_count 0, where the claim as stated
requires skipped_count 1. -/
theorem forecast_skip_policy_counterexample :
    envC1.parseDate "not-a-date" = none ∧
    envC1.parseFloat "100" = some 100 ∧
    processForecastDeals envC1 [dealC1] [] ⟨0, 1000000000000⟩ = ([], 0) := by
  refine ⟨rfl, by with_unfolding_all decide, by with_unfolding_all decide⟩

/-- C1 (amended): skipped_count counts exactly the deals whose close-date
string is absent/empty or whose in-quarter close date comes with an
absent/unparseable amount (a non-empty close-date string that fails to
parse is dropped silently, like an out-of-quarter date); the forecast
population consists of exactly the remaining in-quarter deals; and the
summary's totalARR is the sum of the population's amounts, with the
population and skipped count passed through unchanged. -/
theorem forecast_skip_policy (env : JSEnv) (owners : List (String × String))
    (quarter : QuarterWindow) (deals : List FDeal) :
    (processForecastDeals env deals owners quarter).2
        = deals.countP (forecastSkipSpec env quarter) ∧
    (processForecastDeals env deals owners quarter).1
        = deals.filterMap (forecastKeepSpec env owners quarter) ∧
    (createForecastSummary (processForecastDeals env deals owners quarter).1 quarter
        (processForecastDeals env deals owners quarter).2).totalARR
        = ((processForecastDeals env deals owners quarter).1.map (fun d => d.amount)).sum ∧
    (createForecastSummary (processForecastDeals env deals owners quarter).1 quarter
        (processForecastDeals env deals owners quarter).2).allDeals
        = (processForecastDeals env deals owners quarter).1 ∧
    (createForecastSummary (processForecastDeals env deals owners quarter).1 quarter
        (processForecastDeals env deals owners quarter).2).skippedDealsCount
        = (processForecastDeals env deals owners quarter).2 := by
  refine ⟨?_, ?_, ?_, rfl, rfl⟩
  · induction deals with
    | nil => rfl
    | cons deal rest ih =>
      obtain ⟨did, cd, am, dn, ds, dsl, ho⟩ := deal
      cases cd with
      | none => simpa [processForecastDeals, forecastSkipSpec] using ih
      | some s =>
        by_cases hs : s = ""
        · subst hs
          simpa [processForecastDeals, forecastSkipSpec] using ih
        · by_cases hq : isInQuarter (env.parseDate s) quarter
          · cases ha : forecastAmount env ⟨did, some s, am, dn, ds, dsl, ho⟩ with
            | some amount =>
              simp [processForecastDeals, forecastSkipSpec, hq, ha, ih, hs]
            | none =>
              simp [processForecastDeals, forecastSkipSpec, hq, ha, ih, hs]
          · simp [processForecastDeals, forecastSkipSpec, hq, ih, hs]
  · induction deals with
    | nil => rfl
    | cons deal rest ih =>
      obtain ⟨did, cd, am, dn, ds, dsl, ho⟩ := deal
      cases cd with
      | none => simpa [processForecastDeals, forecastKeepSpec] using ih
      | some s =>
        by_cases hs : s = ""
        · subst hs
          simpa [processForecastDeals, forecastKeepSpec] using ih
        · by_cases hq : isInQuarter (env.parseDate s) quarter
          · cases ha : forecastAmount env ⟨did, some s, am, dn, ds, dsl, ho⟩ with
            | some amount =>
              simp [processForecastDeals, forecastKeepSpec, hq, ha, ih, hs]
            | none =>
              simp [processForecastDeals, forecastKeepSpec, hq, ha, ih, hs]
          · simp [processForecastDeals, forecastKeepSpec, hq, ih, hs]
  · simpa [createForecastSummary] using
      foldl_amount_eq_sum (processForecastDeals env deals owners quarter).1 0

/-- Helper: `jnAdd` is right-commutative. -/
theorem jnAdd_right_comm (a x y : JNum) :
    jnAdd (jnAdd a x) y = jnAdd (jnAdd a y) x := by
  cases a <;> cases x <;> cases y <;> simp [jnAdd, add_right_comm]

/-- Helper: folding `jnAdd` is invariant under permutation of the list. -/
theorem foldl_jnAdd_perm {l1 l2 : List JNum} (h : l1.Perm l2) :
    ∀ init : JNum, l1.foldl jnAdd init = l2.foldl jnAdd init := by
  induction h with
  | nil => intro init; rfl
  | cons x _ ih => intro init; simp only [List.foldl_cons]; exact ih _
  | swap x y l =>
    intro init
    simp only [List.foldl_cons]
    rw [jnAdd_right_comm]
  | trans _ _ ih1 ih2 => intro init; rw [ih1, ih2]

/-- Helper: `jnSum` is invariant under permutation. -/
theorem jnSum_perm {l1 l2 : List JNum} (h : l1.Perm l2) : jnSum l1 = jnSum l2 :=
  foldl_jnAdd_perm h (some 0)

/-- Helper: folding `jnAdd` from NaN stays NaN. -/
theorem foldl_jnAdd_none (l : List JNum) : l.foldl jnAdd none = none := by
  induction l with
  | nil => rfl
  | cons x rest ih => simpa [jnAdd] using ih

/-- Helper: a finite `jnSum` forces every summand to be finite, and the
value is the plain rational sum. -/
theorem foldl_jnAdd_eq_some {l : List JNum} {c t : ℚ}
    (h : l.foldl jnAdd (some c) = some t) :
    ∃ qs : List ℚ, l = qs.map some ∧ t = c + qs.sum := by
  induction l generalizing c with
  | nil =>
    refine ⟨[], rfl, ?_⟩
    simp only [List.foldl_nil, Option.some.injEq] at h
    simp [← h]
  | cons x rest ih =>
    cases x with
    | none => rw [List.foldl_cons] at h; simp [jnAdd, foldl_jnAdd_none] at h
    | some a =>
      rw [List.foldl_cons] at h
      obtain ⟨qs, hqs, hts⟩ := ih (c := c + a) (by simpa [jnAdd] using h)
      exact ⟨a :: qs, by simp [hqs], by rw [hts]; simp [add_assoc]⟩

/-- Helper: `jnSum` over a list of finite numbers is their plain sum. -/
theorem foldl_jnAdd_map_some (qs : List ℚ) (c : ℚ) :
    (qs.map some).foldl jnAdd (some c) = some (c + qs.sum) := by
  induction qs generalizing c with
  | nil => simp
  | cons a rest ih => simp [jnAdd, ih, add_assoc]

/-- Helper: the percentage map `q ↦ q / t * 100` sums to `sum / t * 100`. -/
theorem sum_map_pct (qs : List ℚ) (t : ℚ) :
    (qs.map (fun q => q / t * 100)).sum = qs.sum / t * 100 := by
  induction qs with
  | nil => simp
  | cons a rest ih => simp [ih]; ring

/-- Helper: the stage-accumulating fold of `processActivePipelineDeals`
splits into the bucket list and the two running totals. -/
theorem activeAccum_foldl (env : JSEnv) (gs : List (String × PGroup))
    (bs : List StageForecast) (t w : JNum) :
    gs.foldl
      (fun acc kg =>
        let sf := mkStageForecast env kg.2
        (acc.1 ++ [sf], jnAdd acc.2.1 sf.pipelineAmount, jnAdd acc.2.2 sf.weightedAmount))
      (bs, t, w)
    = (bs ++ gs.map (fun kg => mkStageForecast env kg.2),
       ((gs.map (fun kg => mkStageForecast env kg.2)).map
          (fun b => b.pipelineAmount)).foldl jnAdd t,
       ((gs.map (fun kg => mkStageForecast env kg.2)).map
          (fun b => b.weightedAmount)).foldl jnAdd w) := by
  induction gs generalizing bs t w with
  | nil => simp
  | cons kg rest ih => simp [ih]

/-- Helper: the normal form of `processActivePipelineDeals`: buckets are
the per-group metrics with percentages patched in a second pass, totals
are `jnSum`s over the buckets. -/
theorem processActive_normal (env : JSEnv) (deals : List PDeal)
    (pipelines : List PPipeline) :
    processActivePipelineDeals env deals pipelines =
      (let gs := buildStageGroups pipelines deals []
       let bd0 := gs.map (fun kg => mkStageForecast env kg.2)
       let total := jnSum (bd0.map (fun b => b.pipelineAmount))
       let wtotal := jnSum (bd0.map (fun b => b.weightedAmount))
       let withPct := bd0.map (fun b =>
         { b with percentageOfTotal :=
             if jnPos total then jnScale (jnDiv b.pipelineAmount total) 100
             else some 0 })
       ⟨withPct.mergeSort (fun a b => stageIdx a.stageName ≤ stageIdx b.stageName),
        total, wtotal⟩) := by
  simp only [processActivePipelineDeals, activeAccum_foldl, jnSum,
    List.foldl_map, List.nil_append]

/-- C4: in the weekly weighted forecast every output stage bucket
satisfies `weighted_amount = pipeline_amount × weight` exactly; the
reported totals are the sums over the output buckets (so weight-0 buckets
from unmatched labels still contribute); the `percentage_of_total` values
sum to exactly 100 whenever the total pipeline amount is a positive
number; and they are all exactly 0 when the total is 0.  A label matching
no keyword gets weight 0. -/
theorem weekly_weighted_pipeline (env : JSEnv) (deals : List PDeal)
    (pipelines : List PPipeline) :
    (∀ b ∈ (processActivePipelineDeals env deals pipelines).stageBreakdown,
        b.weightedAmount = jnScale b.pipelineAmount b.stageWeight) ∧
    (processActivePipelineDeals env deals pipelines).totalPipeline
      = jnSum ((processActivePipelineDeals env deals pipelines).stageBreakdown.map
          (fun b => b.pipelineAmount)) ∧
    (processActivePipelineDeals env deals pipelines).weightedPipeline
      = jnSum ((processActivePipelineDeals env deals pipelines).stageBreakdown.map
          (fun b => b.weightedAmount)) ∧
    (∀ t : ℚ, (processActivePipelineDeals env deals pipelines).totalPipeline = some t →
        0 < t →
        jnSum ((processActivePipelineDeals env deals pipelines).stageBreakdown.map
          (fun b => b.percentageOfTotal)) = some 100) ∧
    ((processActivePipelineDeals env deals pipelines).totalPipeline = some 0 →
        ∀ b ∈ (processActivePipelineDeals env deals pipelines).stageBreakdown,
          b.percentageOfTotal = some 0) ∧
    (∀ lbl : String,
        strIncludes lbl.toLower.trim "sql" = false →
        (strIncludes lbl.toLower.trim "demo" &&
          (strIncludes lbl.toLower.trim "completed" ||
           strIncludes lbl.toLower.trim "complete")) = false →
        strIncludes lbl.toLower.trim "proposal" = false →
        getStageWeight lbl = 0) := by
  rw [processActive_normal]
  dsimp only
  set gs := buildStageGroups pipelines deals [] with hgs
  set bd0 := gs.map (fun kg => mkStageForecast env kg.2) with hbd0
  set total := jnSum (bd0.map (fun b => b.pipelineAmount)) with htotal
  set upd := fun b : StageForecast =>
    { b with percentageOfTotal :=
        if jnPos total then jnScale (jnDiv b.pipelineAmount total) 100
        else some 0 } with hupd
  set withPct := bd0.map upd with hwithPct
  set sorted := withPct.mergeSort
    (fun a b => stageIdx a.stageName ≤ stageIdx b.stageName) with hsorted
  have hperm : sorted.Perm withPct := List.mergeSort_perm _ _
  have hpa : withPct.map (fun b => b.pipelineAmount)
      = bd0.map (fun b => b.pipelineAmount) := by
    rw [hwithPct, List.map_map]
    exact List.map_congr_left (fun b _ => rfl)
  have hwa : withPct.map (fun b => b.weightedAmount)
      = bd0.map (fun b => b.weightedAmount) := by
    rw [hwithPct, List.map_map]
    exact List.map_congr_left (fun b _ => rfl)
  refine ⟨?_, ?_, ?_, ?_, ?_, ?_⟩
  · intro b hb
    have hb1 : b ∈ withPct := hperm.mem_iff.mp hb
    rcases List.mem_map.mp hb1 with ⟨b0, hb0, rfl⟩
    rcases List.mem_map.mp hb0 with ⟨kg, _, rfl⟩
    rfl
  · rw [jnSum_perm (hperm.map (fun b => b.pipelineAmount)), hpa]
  · rw [jnSum_perm (hperm.map (fun b => b.weightedAmount)), hwa]
  · intro t ht hpos
    have htne : t ≠ 0 := ne_of_gt hpos
    obtain ⟨qs, hqs, hts⟩ := foldl_jnAdd_eq_some (ht : jnSum _ = some t)
    have hsum : t = qs.sum := by simpa using hts
    have hpct : withPct.map (fun b => b.percentageOfTotal)
        = (qs.map (fun q => q / t * 100)).map some := by
      rw [hwithPct, List.map_map]
      have : ((fun b : StageForecast => b.percentageOfTotal) ∘ upd)
          = fun b => if jnPos total then jnScale (jnDiv b.pipelineAmount total) 100
              else some 0 := rfl
      rw [this, ht]
      have hposb : jnPos (some t) = true := by simp [jnPos, hpos]
      simp only [hposb, if_true]
      have hcomp : (fun b : StageForecast =>
          jnScale (jnDiv b.pipelineAmount (some t)) 100)
          = (fun x => jnScale (jnDiv x (some t)) 100) ∘ (fun b => b.pipelineAmount) := rfl
      rw [hcomp, ← List.map_map, hqs, List.map_map, List.map_map]
      refine List.map_congr_left (fun q _ => ?_)
      simp [jnDiv, jnScale, htne]
    rw [jnSum_perm (hperm.map (fun b => b.percentageOfTotal)), hpct]
    rw [jnSum, foldl_jnAdd_map_some, sum_map_pct, ← hsum]
    rw [div_self htne]
    norm_num
  · intro h0 b hb
    have hb1 : b ∈ withPct := hperm.mem_iff.mp hb
    rcases List.mem_map.mp hb1 with ⟨b0, hb0, rfl⟩
    have : jnPos total = false := by rw [h0]; simp [jnPos]
    simp [hupd, this]
  · intro lbl h1 h2 h3
    simp [getStageWeight, h1, h2, h3]

theorem weekly_weighted_pipeline_witness :
    jnSum ((processActivePipelineDeals envW dealsW plsDemo).stageBreakdown.map
      (fun b => b.percentageOfTotal)) = some 100 :=
  (weekly_weighted_pipeline envW dealsW plsDemo).2.2.2.1 400
    (by with_unfolding_all decide) (by with_unfolding_all decide)

/-- Helper: every deal stored in a group built by `buildStageGroups` came
from the input deal list (or from the starting accumulator). -/
theorem insertGroup_deals_mem {S : PDeal → Prop} (groups : List (String × PGroup))
    (key : String) (d : PDeal) (stageLabel : String) (pid : Option String)
    (hacc : ∀ kg ∈ groups, ∀ x ∈ kg.2.deals, S x) (hd : S d) :
    ∀ kg ∈ insertGroup groups key d stageLabel pid, ∀ x ∈ kg.2.deals, S x := by
  induction groups with
  | nil =>
    intro kg hkg x hx
    simp [insertGroup] at hkg
    subst hkg
    simp at hx
    subst hx
    exact hd
  | cons kg0 rest ih =>
    intro kg hkg x hx
    rw [insertGroup] at hkg
    by_cases hk : kg0.1 = key
    · simp only [hk, if_true] at hkg
      rcases List.mem_cons.mp hkg with h1 | h2
      · rw [h1] at hx
        rcases List.mem_append.mp hx with hx1 | hx2
        · exact hacc kg0 (List.mem_cons_self kg0 rest) x hx1
        · simp at hx2
          subst hx2
          exact hd
      · exact hacc kg (List.mem_cons_of_mem _ h2) x hx
    · simp only [hk, if_false] at hkg
      rcases List.mem_cons.mp hkg with h1 | h2
      · rw [h1] at hx
        exact hacc kg0 (List.mem_cons_self kg0 rest) x hx
      · exact ih (fun g hg => hacc g (List.mem_cons_of_mem _ hg)) kg h2 x hx

/-- Helper: `buildStageGroups` only stores deals from its input list. -/
theorem buildStageGroups_deals_mem {S : PDeal → Prop} (pipelines : List PPipeline)
    (ds : List PDeal) (acc : List (String × PGroup))
    (hacc : ∀ kg ∈ acc, ∀ x ∈ kg.2.deals, S x) (hds : ∀ d ∈ ds, S d) :
    ∀ kg ∈ buildStageGroups pipelines ds acc, ∀ x ∈ kg.2.deals, S x := by
  induction ds generalizing acc with
  | nil => exact hacc
  | cons d rest ih =>
    have hd : S d := hds d (List.mem_cons_self d rest)
    have hrest : ∀ x ∈ rest, S x := fun x hx => hds x (List.mem_cons_of_mem _ hx)
    cases hcd : d.properties.dealstage with
    | none =>
      rw [buildStageGroups, hcd]
      exact ih _ hacc hrest
    | some stageId =>
      rw [buildStageGroups, hcd]
      by_cases hs : stageId = ""
      · simp only [hs, if_true]
        exact ih _ hacc hrest
      · simp only [hs, if_false]
        exact ih _ (insertGroup_deals_mem _ _ _ _ _ hacc hd) hrest

/-- Helper: a `jnAdd` fold over finite summands stays finite. -/
theorem foldl_jnAdd_isSome {α : Type} (f : α → JNum) (l : List α) (c : ℚ)
    (h : ∀ x ∈ l, (f x).isSome) :
    (l.foldl (fun acc d => jnAdd acc (f d)) (some c)).isSome := by
  induction l generalizing c with
  | nil => simp
  | cons x rest ih =>
    have hx := h x (List.mem_cons_self x rest)
    cases hfx : f x with
    | none => rw [hfx] at hx; simp at hx
    | some a =>
      simp only [List.foldl_cons, hfx, jnAdd]
      exact ih _ (fun y hy => h y (List.mem_cons_of_mem _ hy))

/-- Helper: a `jnSum` over finite entries is finite. -/
theorem jnSum_isSome (l : List JNum) (h : ∀ x ∈ l, x.isSome) :
    (jnSum l).isSome := by
  have : l.foldl jnAdd (some 0) = l.foldl (fun acc d => jnAdd acc (id d)) (some 0) := rfl
  rw [jnSum, this]
  exact foldl_jnAdd_isSome id l 0 h

/-- Helper: the closed-deals accumulation keeps a finite amount when every
deal's parsed amount is finite. -/
theorem foldl_closed_isSome (env : JSEnv) (weekStart weekEnd : Int)
    (isClosedWon : Bool) :
    ∀ (ds : List PDeal) (acc : ClosedResult), acc.amount.isSome →
      (∀ d ∈ ds, (dealAmountOrZero env d).isSome) →
      ((ds.foldl
        (fun acc d =>
          let dateEntered := if isClosedWon then d.properties.hsDateEnteredClosedwon
            else d.properties.hsDateEnteredClosedlost
          if isInCurrentWeek env dateEntered weekStart weekEnd then
            ⟨acc.count + 1, jnAdd acc.amount (dealAmountOrZero env d)⟩
          else acc) acc).amount).isSome := by
  intro ds
  induction ds with
  | nil => intro acc hacc _; exact hacc
  | cons d rest ih =>
    intro acc hacc hds
    simp only [List.foldl_cons]
    apply ih
    · rcases Option.isSome_iff_exists.mp hacc with ⟨q, hq⟩
      rcases Option.isSome_iff_exists.mp
        (hds d (List.mem_cons_self d rest)) with ⟨a, ha⟩
      clear ih
      cases isClosedWon <;> split <;> (try split) <;>
        first
        | exact absurd rfl (by assumption)
        | exact hacc
        | (rw [hq, ha]; rfl)
    · exact fun x hx => hds x (List.mem_cons_of_mem _ hx)

/-- C5 (amended): the weekly aggregators read each deal's amount as
`parseFloat(raw || '0')`, so an absent or empty amount property defaults
to exactly 0; when every deal's amount is absent, empty, or parseable the
pipeline and closed-deal sums are well-defined (finite) numbers; but a
non-empty unparseable amount string parses to NaN, which propagates into
the sums (see the counterexample).  The per-deal evaluation is a total
function (never throws). -/
theorem pipeline_amount_parsing (env : JSEnv) (deals : List PDeal)
    (pipelines : List PPipeline) (weekStart weekEnd : Int) (isClosedWon : Bool) :
    (∀ d : PDeal, dealAmountOrZero env d =
        (match d.properties.amount with
         | none => some 0
         | some s => if s = "" then some 0 else env.parseFloat s)) ∧
    ((∀ d ∈ deals, (dealAmountOrZero env d).isSome) →
      ∃ t : ℚ, (processActivePipelineDeals env deals pipelines).totalPipeline = some t) ∧
    ((∀ d ∈ deals, (dealAmountOrZero env d).isSome) →
      ∃ a : ℚ, (processClosedDeals env deals weekStart weekEnd isClosedWon).amount
        = some a) := by
  refine ⟨?_, ?_, ?_⟩
  · intro d
    cases ham : d.properties.amount with
    | none => simp [dealAmountOrZero, ham, env.parseFloat_zero]
    | some s =>
      by_cases hs : s = "" <;>
        simp [dealAmountOrZero, ham, hs, env.parseFloat_zero]
  · intro h
    rw [processActive_normal]
    dsimp only
    have hmem : ∀ kg ∈ buildStageGroups pipelines deals [],
        ∀ x ∈ kg.2.deals, (dealAmountOrZero env x).isSome :=
      buildStageGroups_deals_mem pipelines deals [] (by simp) h
    apply Option.isSome_iff_exists.mp
    apply jnSum_isSome
    intro y hy
    rw [List.map_map] at hy
    rcases List.mem_map.mp hy with ⟨kg, hkg, rfl⟩
    exact foldl_jnAdd_isSome _ _ _ (hmem kg hkg)
  · intro h
    unfold processClosedDeals
    exact Option.isSome_iff_exists.mp
      (foldl_closed_isSome env weekStart weekEnd isClosedWon deals ⟨0, some 0⟩
        (by simp) h)

/-- C5 counterexample: with a single deal whose amount property is the
non-numeric string "abc" (and `parseFloat('abc')` = NaN), the total
pipeline amount is NaN, not 0 — the claimed default-to-0 does not hold for
non-empty unparseable strings. -/
theorem pipeline_amount_parsing_counterexample :
    envNaN.parseFloat "abc" = none ∧
    (processActivePipelineDeals envNaN [dealAbc] plsDemo).totalPipeline = none := by
  constructor
  · with_unfolding_all decide
  · with_unfolding_all decide

theorem pipeline_amount_parsing_witness :
    (∀ d ∈ dealsW, (dealAmountOrZero envW d).isSome) ∧
    (∃ t : ℚ, (processActivePipelineDeals envW dealsW plsDemo).totalPipeline = some t) ∧
    (∃ a : ℚ, (processClosedDeals envW dealsW 0 10 true).amount = some a) :=
  ⟨by with_unfolding_all decide,
   (pipeline_amount_parsing envW dealsW plsDemo 0 10 true).2.1
     (by with_unfolding_all decide),
   (pipeline_amount_parsing envW dealsW plsDemo 0 10 true).2.2
     (by with_unfolding_all decide)⟩

/-- Helper: rounding an integer-plus-half-free value: `jsRound` is the
identity on integers. -/
theorem jsRound_intCast (k : Int) : jsRound ((k : ℚ)) = k := by
  rw [jsRound, Int.floor_int_add]
  norm_num

/-- C6 counterexample: the Proposal-stage population with days [2, 3] has
standard median 2.5, but the reported medianDaysInStage is the rounded
value 3. -/
theorem stage_median_counterexample :
    calculateMedian [(2 : ℚ), 3] = 5 / 2 ∧
    (createStageBreakdown proposalConfig agingDeals23).medianDaysInStage = 3 := by
  constructor
  · with_unfolding_all decide
  · with_unfolding_all decide

/-- C6 (amended): the reported medianDaysInStage is `Math.round` of the
standard median of the stage population's days-in-stage values (middle
element for odd sizes, mean of the two middle for even sizes, 0 for
empty); for odd-sized populations the median is itself an integer day
count and is therefore reported exactly; [2,4,6,8] has median 5.0. -/
theorem stage_median (stageConfig : StageConfig) (deals : List StageAgingDeal) :
    (createStageBreakdown stageConfig deals).medianDaysInStage
      = jsRound (calculateMedian ((deals.filter
          (fun d => d.dealStage == stageConfig.stageId)).map
          (fun d => (d.daysInStage : ℚ)))) ∧
    calculateMedian [] = 0 ∧
    calculateMedian [(2 : ℚ), 4, 6, 8] = 5 ∧
    (∀ l : List Int, l.length % 2 = 1 →
      ∃ k : Int, calculateMedian (l.map (fun i : Int => (i : ℚ))) = (k : ℚ) ∧
        jsRound (calculateMedian (l.map (fun i : Int => (i : ℚ)))) = k) := by
  refine ⟨rfl, rfl, by with_unfolding_all decide, ?_⟩
  intro l hl
  have hlen : (l.map (fun i : Int => (i : ℚ))).length = l.length := List.length_map _ _
  have hlen0 : (l.map (fun i : Int => (i : ℚ))).length ≠ 0 := by omega
  have hslen : ((l.map (fun i : Int => (i : ℚ))).mergeSort (fun a b => a ≤ b)).length
      = (l.map (fun i : Int => (i : ℚ))).length := List.length_mergeSort _
  have hodd2 : ¬(((l.map (fun i : Int => (i : ℚ))).mergeSort
      (fun a b => a ≤ b)).length % 2 = 0) := by omega
  have hmid : ((l.map (fun i : Int => (i : ℚ))).mergeSort
        (fun a b => a ≤ b)).length / 2
      < ((l.map (fun i : Int => (i : ℚ))).mergeSort (fun a b => a ≤ b)).length := by
    omega
  have hmed : calculateMedian (l.map (fun i : Int => (i : ℚ)))
      = ((l.map (fun i : Int => (i : ℚ))).mergeSort (fun a b => a ≤ b)).getD
          (((l.map (fun i : Int => (i : ℚ))).mergeSort
            (fun a b => a ≤ b)).length / 2) 0 := by
    rw [calculateMedian, if_neg hlen0]
    dsimp only
    rw [if_neg hodd2]
  have hmem : ((l.map (fun i : Int => (i : ℚ))).mergeSort (fun a b => a ≤ b)).getD
      (((l.map (fun i : Int => (i : ℚ))).mergeSort
        (fun a b => a ≤ b)).length / 2) 0
      ∈ (l.map (fun i : Int => (i : ℚ))).mergeSort (fun a b => a ≤ b) := by
    rw [List.getD_eq_getElem _ 0 hmid]
    exact List.getElem_mem hmid
  have hmem2 := (List.mergeSort_perm (l.map (fun i : Int => (i : ℚ))) _).mem_iff.mp hmem
  rcases List.mem_map.mp hmem2 with ⟨k, _, hk⟩
  refine ⟨k, ?_, ?_⟩
  · rw [hmed, ← hk]
  · rw [hmed, ← hk, jsRound_intCast]

theorem stage_median_witness :
    (createStageBreakdown proposalConfig agingDeals2468).medianDaysInStage = 5 ∧
    (∃ k : Int, calculateMedian ([(7 : Int)].map (fun i : Int => (i : ℚ))) = (k : ℚ) ∧
      jsRound (calculateMedian ([(7 : Int)].map (fun i : Int => (i : ℚ)))) = k) := by
  constructor
  · rw [(stage_median proposalConfig agingDeals2468).1]
    with_unfolding_all decide
  · exact (stage_median proposalConfig agingDeals2468).2.2.2 [7] (by decide)

/-- C7: for every clock reading whose month component is valid (0-11),
`getCurrentQuarter` returns the calendar quarter containing it:
quarter = floor(month/3)+1 in 1..4, startDate the first instant (00:00:00.000
on day 1) of the quarter's first month, endDate 23:59:59.999 on the last
day of the quarter's final month of the same year. -/
theorem quarter_boundaries (now : DateTime)
    (h0 : 0 ≤ now.month) (h1 : now.month ≤ 11) :
    (getCurrentQuarter now).year = now.year ∧
    1 ≤ (getCurrentQuarter now).quarter ∧
    (getCurrentQuarter now).quarter ≤ 4 ∧
    (getCurrentQuarter now).quarter = now.month / 3 + 1 ∧
    (getCurrentQuarter now).startDate
      = ⟨now.year, ((getCurrentQuarter now).quarter - 1) * 3, 1, 0, 0, 0, 0⟩ ∧
    (getCurrentQuarter now).endDate
      = ⟨now.year, (getCurrentQuarter now).quarter * 3 - 1,
          daysInMonth now.year ((getCurrentQuarter now).quarter * 3 - 1),
          23, 59, 59, 999⟩ := by
  rcases (by omega :
      now.month / 3 = 0 ∨ now.month / 3 = 1 ∨ now.month / 3 = 2 ∨ now.month / 3 = 3)
    with hk | hk | hk | hk <;>
      simp [getCurrentQuarter, jsMakeDate, hk]

set_option maxRecDepth 40000 in
theorem quarter_boundaries_witness :
    (getCurrentQuarter oct15).year = 2025 ∧
    (getCurrentQuarter oct15).quarter = 4 ∧
    (getCurrentQuarter oct15).startDate = ⟨2025, 9, 1, 0, 0, 0, 0⟩ ∧
    (getCurrentQuarter oct15).endDate = ⟨2025, 11, 31, 23, 59, 59, 999⟩ := by
  obtain ⟨hy, _, _, hq, hs, he⟩ := quarter_boundaries oct15 (by decide) (by decide)
  refine ⟨hy, ?_, ?_, ?_⟩
  · rw [hq]; with_unfolding_all decide
  · rw [hs]; with_unfolding_all decide
  · rw [he]; with_unfolding_all decide

/-- C8: for every clock reading with a valid time of day,
`getCurrentWeek` returns a Monday-00:00:00.000 start and a
Sunday-23:59:59.999 end exactly 6 days later, with the reading inside the
range; and on a Sunday (platform day-of-week 0) the week start is the
Monday six days earlier. -/
theorem week_boundaries (now : DayTime)
    (h0 : 0 ≤ now.msOfDay) (h1 : now.msOfDay ≤ 86399999) :
    dayOfWeek (getCurrentWeek now).weekStart.days = 1 ∧
    (getCurrentWeek now).weekStart.msOfDay = 0 ∧
    (getCurrentWeek now).weekEnd.days = (getCurrentWeek now).weekStart.days + 6 ∧
    (getCurrentWeek now).weekEnd.msOfDay = 86399999 ∧
    dayOfWeek (getCurrentWeek now).weekEnd.days = 0 ∧
    (getCurrentWeek now).weekEndingDate = (getCurrentWeek now).weekEnd ∧
    dtLe (getCurrentWeek now).weekStart now ∧
    dtLe now (getCurrentWeek now).weekEnd ∧
    (dayOfWeek now.days = 0 → (getCurrentWeek now).weekStart.days = now.days - 6) := by
  obtain ⟨days, ms⟩ := now
  simp only [getCurrentWeek, dayOfWeek, dtLe] at *
  split_ifs with h <;> simp_all <;> omega

theorem week_boundaries_witness :
    dayOfWeek (getCurrentWeek sundayNoon).weekStart.days = 1 ∧
    dtLe (getCurrentWeek sundayNoon).weekStart sundayNoon ∧
    (getCurrentWeek sundayNoon).weekStart.days = sundayNoon.days - 6 := by
  obtain ⟨hmon, _, _, _, _, _, hle, _, hsun⟩ :=
    week_boundaries sundayNoon (by decide) (by decide)
  exact ⟨hmon, hle, hsun (by decide)⟩

set_option maxRecDepth 40000 in
/-- C9 counterexample: the time-window computation depends on the platform
clock read inside the function body (`getCurrentQuarter` takes no `now`
parameter in the source), so two runs over identical deal input at
different wall-clock instants produce different reports: the quarter
computed in January 2025 differs from the one computed in October 2025. -/
theorem clock_read_counterexample :
    getCurrentQuarter jan15 ≠ getCurrentQuarter oct15 := by
  with_unfolding_all decide

/-- C9 (amended): the source's time-window functions read the platform
wall clock directly inside their bodies (`new Date()` — they take no
injected `now`), so the reports are a function of the clock as well as the
input; modulo that clock reading the computation is deterministic:
`getCurrentQuarter` depends only on the reading's year and month, and
`getCurrentWeek` only on its day number. -/
theorem clock_determinism (t1 t2 : DateTime) (n1 n2 : DayTime) :
    (t1.year = t2.year → t1.month = t2.month →
      getCurrentQuarter t1 = getCurrentQuarter t2) ∧
    (n1.days = n2.days → getCurrentWeek n1 = getCurrentWeek n2) := by
  constructor
  · intro hy hm
    unfold getCurrentQuarter
    rw [hy, hm]
  · intro hd
    unfold getCurrentWeek
    rw [hd]

theorem clock_determinism_witness :
    getCurrentQuarter ⟨2025, 9, 15, 0, 0, 0, 0⟩
      = getCurrentQuarter ⟨2025, 9, 20, 6, 30, 0, 0⟩ ∧
    getCurrentWeek ⟨3, 0⟩ = getCurrentWeek ⟨3, 43200000⟩ :=
  ⟨(clock_determinism ⟨2025, 9, 15, 0, 0, 0, 0⟩ ⟨2025, 9, 20, 6, 30, 0, 0⟩
      ⟨3, 0⟩ ⟨3, 43200000⟩).1 rfl rfl,
   (clock_determinism ⟨2025, 9, 15, 0, 0, 0, 0⟩ ⟨2025, 9, 20, 6, 30, 0, 0⟩
      ⟨3, 0⟩ ⟨3, 43200000⟩).2 rfl⟩
